import Mathlib

/-!
Verification of the chunking / extraction / consolidation pipeline of
`ler_documentos.py`.

The Python source is embedded shallowly:

* pure string/list manipulation becomes Lean functions on `String` and
  `List String`;
* the `while` loop of `dividir_em_chunks` becomes a fuel-indexed loop
  (`chunkLoop`), so that divergence of the source loop is expressible as
  "no amount of fuel completes the loop";
* the HTTP call `chamar_ollama` is embedded as a function of the outcome
  of the request (success with an optional `response` field, or a
  transport/timeout error), mirroring its `try/except`;
* the LLM collaborator is an oracle passed as a function argument; calls
  issued to it are recorded in an explicit trace where a claim talks
  about which calls are made;
* the JSON profile store `modelos_orientacoes.json` becomes an
  association list of profiles plus the reserved `"default"` orientation
  entry (which the source only ever stores as a plain string);
* the file write of `salvar_orientacao_modelo` (`open(..., "w")` then
  `json.dump`) becomes an explicit sequence of file-system actions
  (truncate, then write) so that the intermediate on-disk states are
  observable.

`print` logging, the CLI entry point and the document readers (PDF/DOCX/
TXT parsing, external libraries) are outside the claims and are not
modelled.
-/

/-! ## Configuration constants (lines 23-24 of the source) -/

def MAX_CHUNK_SIZE : Nat := 1200

def CHUNK_OVERLAP : Nat := 250

/-- `palavras_por_chunk = MAX_CHUNK_SIZE // 4` (line 170). -/
def palavras_por_chunk : Nat := MAX_CHUNK_SIZE / 4

/-- `palavras_sobreposicao = CHUNK_OVERLAP // 4` (line 171). -/
def palavras_sobreposicao : Nat := CHUNK_OVERLAP / 4

/-! ## Chunking (`dividir_em_chunks`, lines 162-185) -/

/-- `texto.split()` of Python: split on whitespace, discarding empty
pieces. -/
def palavrasDe (texto : String) : List String :=
  (texto.split fun c => c.isWhitespace).filter (fun w => w ≠ "")

/-- The `while i < len(palavras)` loop of `dividir_em_chunks`
(lines 173-183), with the two chunking budgets `P` (words per chunk) and
`O` (overlapping words) as parameters.  Each iteration takes the window
`palavras[i:fim]` with `fim = min(i + P, len(palavras))`, breaks if the
window reached the end, and otherwise advances `i` by `P - O`.

The loop of the source has no built-in bound, so it is embedded with
explicit fuel: `none` means the fuel ran out before the loop finished.
Windows are kept as word lists; the source joins each window with
`" ".join` (see `dividir_em_chunks` below).

The source computes `palavras_por_chunk - palavras_sobreposicao` in
Python integers; the embedding uses `Nat` subtraction, which agrees with
the source whenever `O ≤ P` (every configuration a claim mentions). -/
def chunkLoop (palavras : List String) (P O : Nat) :
    Nat → Nat → List (List String) → Option (List (List String))
  | 0, _, _ => none
  | fuel + 1, i, acc =>
    if i < palavras.length then
      let fim := min (i + P) palavras.length
      let chunk := (palavras.drop i).take (fim - i)
      if fim = palavras.length then some (acc ++ [chunk])
      else chunkLoop palavras P O fuel (i + (P - O)) (acc ++ [chunk])
    else some acc

/-- The word-level result of `dividir_em_chunks` with the program's
configuration.  Fuel `palavras.length + 1` is enough: the advance step
`palavras_por_chunk - palavras_sobreposicao = 238` is positive, so the
loop runs at most `palavras.length` iterations
(`chunkLoop_eq_janelasDesde` below proves the result is `some`). -/
def dividirEmChunksPalavras (palavras : List String) : Option (List (List String)) :=
  chunkLoop palavras palavras_por_chunk palavras_sobreposicao (palavras.length + 1) 0 []

/-- `dividir_em_chunks(texto)` (lines 162-185): empty text gives no
chunks (`if not texto`), otherwise the word windows of the loop above,
each rendered with `" ".join(palavras[i:fim])`. -/
def dividir_em_chunks (texto : String) : List String :=
  if texto = "" then []
  else
    ((dividirEmChunksPalavras (palavrasDe texto)).getD []).map
      (fun w => String.intercalate " " w)

/-- Total description of the windows the loop emits starting at index
`i`, valid for a configuration with positive advance step (`O < P`).
`chunkLoop_eq_janelasDesde` proves it equal to the fueled loop, which is
the faithful embedding; the final `else` branch (advance step zero,
where the source loop never terminates) is unreachable under `O < P`
and its value is irrelevant. -/
def janelasDesde (palavras : List String) (P O i : Nat) : List (List String) :=
  if h : i < palavras.length then
    let fim := min (i + P) palavras.length
    let chunk := (palavras.drop i).take (fim - i)
    if fim = palavras.length then [chunk]
    else if hO : O < P then chunk :: janelasDesde palavras P O (i + (P - O))
    else [chunk]
  else []
termination_by palavras.length - i
decreasing_by
  have h1 : i + P < palavras.length := by
    rcases Nat.lt_or_ge (i + P) palavras.length with h' | h'
    · exact h'
    · exact absurd (Nat.min_eq_right h') (by omega)
  omega

/-- Concatenation of the windows with the overlapping word ranges
deduplicated: the first window in full, then each later window with its
first `O` words (the words it shares with its predecessor) removed.  On
the recursive structure of `janelasDesde` this reads: the head window,
followed by the glued tail with its leading `O` shared words dropped. -/
def colar (O : Nat) : List (List String) → List String
  | [] => []
  | w :: ws => w ++ (colar O ws).drop O

/-- Exact positional overlap between two consecutive windows of the
chunking loop: the earlier window is full (`P` words), the later one has
more than `O` words, and the last `O` words of the earlier window are
exactly the first `O` words of the later one — so the pair shares
exactly the `O`-word range and nothing forces a larger share. -/
def sobreposicaoExata (P O : Nat) (w w' : List String) : Prop :=
  w.length = P ∧ O < w'.length ∧ w.drop (P - O) = w'.take O

/-! ## Substring containment (the `in` operator of Python on strings) -/

/-- `agulha in hay` of Python: the needle's character sequence occurs
contiguously inside the haystack's. -/
abbrev Contem (hay agulha : String) : Prop :=
  agulha.toList <:+: hay.toList

/-! ## The Ollama call (`chamar_ollama`, lines 190-210) -/

/-- `chamar_ollama` with the HTTP exchange abstracted by its outcome:
`Except.error e` when `requests.post` raises (timeout, connection
refused) or `raise_for_status` fires on a non-2xx reply — the `except`
branch returns `""`; `Except.ok r` for a 2xx JSON reply, where the
source returns `response.json().get("response", "")`, i.e. the field
when present and `""` otherwise. -/
def chamar_ollama (resultado : Except String (Option String)) : String :=
  match resultado with
  | Except.ok r => r.getD ""
  | Except.error _ => ""

/-! ## Model profiles (`modelos_orientacoes.json`) -/

/-- A topic of a model profile: a JSON object whose display name is read
as `topico.get('nome', topico.get('name', ...))` (lines 263, 84, 235),
so either key may be absent. -/
structure Topico where
  nome : Option String
  name : Option String
deriving DecidableEq

/-- A saved model profile (the JSON object `salvar_orientacao_modelo`
writes, lines 48-53): display name, orientation text, optional topic
list (read back with `.get("topicos", [])`, line 231) and timestamp. -/
structure Perfil where
  nome : String
  orientacao : String
  topicos : Option (List Topico)
  ultima_atualizacao : String
deriving DecidableEq

/-- The loaded store `modelos_orientacoes.json`: profiles keyed by model
id, plus the reserved `"default"` key, which the source only ever stores
as a plain orientation string (lines 36-39) and reads with
`orientacoes.get("default", ...)` (line 237); `none` models the key
being absent.  Extraction with `modelo_id = "default"` itself is outside
the claims and not modelled. -/
structure Orientacoes where
  modelos : List (String × Perfil)
  padrao : Option String
deriving DecidableEq

/-- The fallback default orientation hard-coded at line 237. -/
def orientacaoDefaultFallback : String :=
  "Como profissional de TI especializado em desenvolvimento de software, foque na extração de requisitos funcionais e não funcionais, regras de negócio, arquitetura de sistemas e especificações técnicas."

/-- The orientation used when no specific model applies:
`orientacoes.get("default", <fallback>)` (line 237). -/
def orientacaoDefault (o : Orientacoes) : String :=
  o.padrao.getD orientacaoDefaultFallback

/-- Resolution of the active orientation and topic list
(lines 227-239): the branch `if modelo_id and modelo_id in orientacoes`
(so a `None` or empty — falsy — id, or an id that is not a key, falls
back to the default orientation with no topics). -/
def resolverOrientacao (o : Orientacoes) (modeloId : Option String) :
    String × List Topico :=
  match modeloId with
  | some m =>
    if m ≠ "" then
      match o.modelos.lookup m with
      | some p => (p.orientacao, p.topicos.getD [])
      | none => (orientacaoDefault o, [])
    else (orientacaoDefault o, [])
  | none => (orientacaoDefault o, [])

/-! ## Prompt composition (`extrair_informacoes`, lines 215-293) -/

/-- `comportamento_base` (lines 222-224; the triple-quoted string keeps
the 4-space indentation of its continuation lines). -/
def comportamento_base : String :=
  "Você é um profissional de TI especializado em desenvolvimento de software e criação de documentos técnicos.\n    Sua missão é extrair e obter insumos de documentos para alimentar a criação de documentos estruturados no contexto de desenvolvimento de sistemas.\n    Você analisa textos técnicos, identifica requisitos funcionais e não funcionais, regras de negócio, arquitetura de software e especificações técnicas."

/-- The sentinel string the system prompt instructs the model to emit
(line 251) — with its final period. -/
def sentinelaInstruida : String := "Nenhuma informação técnica relevante."

/-- The substring actually tested at line 290,
`"Nenhuma informação técnica relevante" not in resposta` — without the
final period of the instructed sentinel. -/
def sentinelaVerificada : String := "Nenhuma informação técnica relevante"

/-- `contemSentinela resposta` is the (negation of the) retention test of
line 290: does the response contain the checked sentinel substring? -/
def contemSentinela (resposta : String) : Bool :=
  decide (Contem resposta sentinelaVerificada)

/-- Opening of the f-string `system_prompt` up to the interpolated
orientation (lines 242-244). -/
def sysCab : String :=
  comportamento_base ++ "\n\n    ORIENTAÇÃO ESPECÍFICA PARA ESTE MODELO:\n    "

/-- Tail of `system_prompt` after the interpolated orientation
(lines 246-252). -/
def sysRegras : String :=
  "\n\n    REGRAS CRÍTICAS:\n    1. Responda APENAS em Português Brasileiro.\n    2. NÃO adicione opiniões ou interpretações.\n    3. NÃO invente informações.\n    4. Se o trecho não contiver requisitos, responda: \"" ++
    sentinelaInstruida ++ "\"\n    "

/-- `system_prompt` (lines 242-252). -/
def montarSystemPrompt (orientacaoEspecifica : String) : String :=
  sysCab ++ orientacaoEspecifica ++ sysRegras

/-- Display name of a topic at (1-based) position `j`:
`topico.get('nome', topico.get('name', f'Tópico {j}'))` (line 263). -/
def nomeTopico (j : Nat) (t : Topico) : String :=
  t.nome.getD (t.name.getD ("Tópico " ++ toString j))

/-- The numbered topic lines accumulated by the
`for j, topico in enumerate(topicos_modelo, 1)` loop (lines 262-264):
one `f"{j}. {nome_topico}\n"` per topic. -/
def linhasTopicos : Nat → List Topico → String
  | _, [] => ""
  | j, t :: resto =>
    toString j ++ ". " ++ nomeTopico j t ++ "\n" ++ linhasTopicos (j + 1) resto

/-- Head of the topic-driven prompt (lines 259-261). -/
def promptTopicosCab : String :=
  "Analise o texto abaixo e extraia informações relevantes para os seguintes tópicos do documento:\n\n"

/-- Middle of the topic-driven prompt, between the topic lines and the
chunk (lines 266-271). -/
def promptTopicosMeio : String :=
  "\n\nPara cada tópico, identifique informações, conceitos ou dados do texto que sejam relevantes para aquele tópico específico.\n\nTEXTO:\n<<<\n"

/-- The topic-driven user prompt (lines 259-274). -/
def promptTopicos (topicos : List Topico) (chunk : String) : String :=
  promptTopicosCab ++ linhasTopicos 1 topicos ++ promptTopicosMeio ++ chunk ++ "\n>>>\n"

/-- The generic four-category fallback prompt (lines 277-287). -/
def promptGenerico (chunk : String) : String :=
  "Extraia do texto abaixo:\n- Regras de Negócio\n- Requisitos Funcionais (o que o sistema faz)\n- Requisitos Não Funcionais (qualidade, performance, segurança)\n- Premissas e Restrições\n\nTEXTO:\n<<<\n" ++
    chunk ++ "\n>>>\n"

/-- Per-chunk prompt choice (`if topicos_modelo:`, line 258): the
topic-driven prompt when the resolved topic list is non-empty, the
generic prompt otherwise. -/
def montarPrompt (topicos : List Topico) (chunk : String) : String :=
  if topicos.isEmpty then promptGenerico chunk else promptTopicos topicos chunk

/-- The `for i, chunk in enumerate(chunks, 1)` loop of
`extrair_informacoes` (lines 254-293).  `respostaDe k` is the text the
inference collaborator returns for the `k`-th call (0-based; the source
makes exactly one call per chunk, in order).  Returns the retained
extraction texts (`resumos`) together with the trace of
`(prompt, system_prompt)` pairs sent to `chamar_ollama`, in call
order.  A response is retained — stripped of surrounding whitespace —
exactly when the sentinel-substring test of line 290 fails. -/
def extrairLoop (respostaDe : Nat → String) (systemPrompt : String)
    (topicos : List Topico) : Nat → List String → List String × List (String × String)
  | _, [] => ([], [])
  | k, chunk :: resto =>
    let prompt := montarPrompt topicos chunk
    let resposta := respostaDe k
    let resultado := extrairLoop respostaDe systemPrompt topicos (k + 1) resto
    ((if contemSentinela resposta then resultado.1 else resposta.trim :: resultado.1),
      (prompt, systemPrompt) :: resultado.2)

/-- `extrair_informacoes(chunks, modelo_id)` (lines 215-293), with the
profile store (read from disk by `carregar_orientacoes_modelos` in the
source) and the collaborator's responses passed in explicitly. -/
def extrair_informacoes (respostaDe : Nat → String) (orientacoes : Orientacoes)
    (chunks : List String) (modeloId : Option String) :
    List String × List (String × String) :=
  let r := resolverOrientacao orientacoes modeloId
  extrairLoop respostaDe (montarSystemPrompt r.1) r.2 0 chunks

/-! ## Consolidation (`consolidar_analise`, lines 298-330) -/

/-- The fixed system prompt of both consolidation calls (line 301). -/
def systemConsolidacao : String :=
  "Você é um Engenheiro de Requisitos Sênior responsável por consolidar documentação de múltiplos arquivos."

/-- Opening of `prompt_consolidacao` up to the interpolated
`chr(10).join(extrações)` (lines 303-307). -/
def promptConsolidacaoCab : String :=
  "Consolide as seguintes extrações técnicas em um único documento estruturado.\n    Remova duplicatas e organize por categorias.\n    \n    EXTRAÇÕES:\n    "

/-- Tail of `prompt_consolidacao` (lines 308-314). -/
def promptConsolidacaoRodape : String :=
  "\n    \n    SAÍDA ESTRUTURADA (Markdown):\n    ## 1. Regras de Negócio\n    ## 2. Requisitos Funcionais\n    ## 3. Requisitos Não Funcionais\n    ## 4. Premissas e Restrições\n    "

/-- `prompt_consolidacao` (lines 303-314): the extraction texts joined
with newlines, embedded in the fixed instruction text. -/
def promptConsolidacao (extracoes : List String) : String :=
  promptConsolidacaoCab ++ String.intercalate "\n" extracoes ++ promptConsolidacaoRodape

/-- Opening of `prompt_resumo` up to the interpolated
`concluido[:2000]` (lines 320-325). -/
def promptResumoCab : String :=
  "Baseado na análise consolidada acima, gere um resumo curto de entendimento.\n    Use EXATAMENTE este formato:\n    \"Resumo dos documentos analisados, após analisar a documentação na base de conhecimento, entendo que a necessidade do cliente [NOME DO CLIENTE], é resolver o problema de \x27[PROBLEMA PRINCIPAL]\x27 de sua loja/empresa.\"\n    \n    ANÁLISE:\n    "

/-- The Python comment that sits *inside* the f-string literal at
line 325 and is therefore part of the prompt sent to the model. -/
def comentarioResumo : String := " # Limitando contexto para o resumo"

/-- `prompt_resumo` (lines 320-326): embeds only `concluido[:2000]`,
followed by the literal in-string comment and the closing
newline-plus-indent of the triple-quoted string. -/
def promptResumo (concluido : String) : String :=
  promptResumoCab ++ concluido.take 2000 ++ (comentarioResumo ++ "\n    ")

/-- `consolidar_analise(extrações, project_id)` (lines 298-330), with
the collaborator abstracted as `infer prompt system`.  Returns the
source's `(concluido, resumo)` pair together with the trace of
`(prompt, system_prompt)` pairs sent to `chamar_ollama`, in call
order.  `project_id` is accepted and unused, exactly as in the
source. -/
def consolidar_analise (infer : String → String → String)
    (extracoes : List String) (project_id : String) :
    (String × String) × List (String × String) :=
  let prompt1 := promptConsolidacao extracoes
  let concluido := infer prompt1 systemConsolidacao
  let prompt2 := promptResumo concluido
  let resumo := infer prompt2 systemConsolidacao
  ((concluido, resumo), [(prompt1, systemConsolidacao), (prompt2, systemConsolidacao)])

/-! ## Saving a profile (`salvar_orientacao_modelo`, lines 44-60) -/

/-- The JSON object written for the saved model (lines 48-53):
`topicos or []` maps a missing topic list to `[]`, and the timestamp
`str(datetime.now())` is passed in as `agora`. -/
def perfilSalvo (nome_modelo orientacao : String) (topicos : Option (List Topico))
    (agora : String) : Perfil :=
  ⟨nome_modelo, orientacao, some (topicos.getD []), agora⟩

/-- `orientacoes[model_id] = {...}` on the loaded mapping: overwrite the
value at the key when present (Python dicts keep the key's position),
otherwise append the new key at the end. -/
def atualizarPerfil (modelos : List (String × Perfil)) (model_id : String)
    (p : Perfil) : List (String × Perfil) :=
  if modelos.any (fun e => e.1 == model_id) then
    modelos.map (fun e => if e.1 == model_id then (e.1, p) else e)
  else modelos ++ [(model_id, p)]

/-- The mapping `salvar_orientacao_modelo` serializes and writes
(lines 46-56): the loaded profiles with the new entry merged in. -/
def salvar_orientacao_modelo (modelos : List (String × Perfil))
    (model_id nome_modelo orientacao : String) (topicos : Option (List Topico))
    (agora : String) : List (String × Perfil) :=
  atualizarPerfil modelos model_id (perfilSalvo nome_modelo orientacao topicos agora)

/-- File-system actions the save performs on the store file:
`open(ORIENTACOES_FILE, "w")` truncates the file, then `json.dump`
writes the serialized mapping into it. -/
inductive AcaoArquivo where
  | abrirTruncando : AcaoArquivo
  | escrever : String → AcaoArquivo

/-- Effect of one file-system action on the persisted content. -/
def aplicarAcao (conteudo : String) : AcaoArquivo → String
  | AcaoArquivo.abrirTruncando => ""
  | AcaoArquivo.escrever s => conteudo ++ s

/-- The action sequence of lines 55-56: truncate on open, then write
the new serialized mapping. -/
def passosEscrita (novoConteudo : String) : List AcaoArquivo :=
  [AcaoArquivo.abrirTruncando, AcaoArquivo.escrever novoConteudo]

/-- All on-disk states the store file passes through while the actions
run, starting from the previously persisted content. -/
def estadosArquivo (antigo : String) (acoes : List AcaoArquivo) : List String :=
  acoes.scanl aplicarAcao antigo

/-! ## Concrete fixtures used by counterexamples and witnesses -/

/-- A store with no saved profiles and no persisted `"default"` key. -/
def orientacoesVazias : Orientacoes := ⟨[], none⟩

def topicoEscopo : Topico := ⟨some "Escopo", none⟩

def topicoPrazo : Topico := ⟨some "Prazo", none⟩

/-- The profile of the spec's model-resolution example: key `"X"` with
topics `["Escopo", "Prazo"]`. -/
def perfilX : Perfil :=
  ⟨"Contrato Exemplo", "Orientação específica do modelo X", some [topicoEscopo, topicoPrazo], "2024-01-01 00:00:00"⟩

/-- A store containing the key `"X"` and no key `"Y"`. -/
def orientacoesExemplo : Orientacoes := ⟨[("X", perfilX)], none⟩

/-- A previously persisted store content (an empty JSON object). -/
def conteudoAntigoExemplo : String := "\x7b\x7d"

/-- A serialized new store content. -/
def conteudoNovoExemplo : String := "\x7b \x22m1\x22: \x22novo perfil\x22 \x7d"

/-! # Theorems -/

/-! ## Loop characterization -/

theorem chunkLoop_eq_janelasDesde (palavras : List String) (P O : Nat) (hO : O < P) :
    ∀ fuel i acc, palavras.length - i < fuel →
      chunkLoop palavras P O fuel i acc =
        some (acc ++ janelasDesde palavras P O i) := by
  intro fuel
  induction fuel with
  | zero => intro i acc h; omega
  | succ fuel ih =>
    intro i acc h
    rw [chunkLoop, janelasDesde]
    by_cases hi : i < palavras.length
    · simp only [hi, if_true, dif_pos]
      by_cases hfim : min (i + P) palavras.length = palavras.length
      · simp [hfim]
      · have hstep : i + P < palavras.length := by
          rcases Nat.lt_or_ge (i + P) palavras.length with h' | h'
          · exact h'
          · exact absurd (Nat.min_eq_right h') hfim
        simp only [hfim, if_false, hO, dif_pos]
        rw [ih (i + (P - O)) (acc ++ [(palavras.drop i).take
          (min (i + P) palavras.length - i)]) (by omega)]
        simp
    · simp [hi]

theorem dividirEmChunksPalavras_eq (palavras : List String) :
    dividirEmChunksPalavras palavras =
      some (janelasDesde palavras palavras_por_chunk palavras_sobreposicao 0) := by
  have h := chunkLoop_eq_janelasDesde palavras palavras_por_chunk palavras_sobreposicao
    (by norm_num [palavras_por_chunk, palavras_sobreposicao, MAX_CHUNK_SIZE, CHUNK_OVERLAP])
    (palavras.length + 1) 0 [] (by omega)
  simpa [dividirEmChunksPalavras] using h

theorem janelasDesde_head (palavras : List String) (P O i : Nat) (hO : O < P)
    (hi : i < palavras.length) :
    ∃ resto,
      janelasDesde palavras P O i =
        ((palavras.drop i).take (min (i + P) palavras.length - i)) :: resto := by
  rw [janelasDesde]
  simp only [hi, dif_pos]
  by_cases hfim : min (i + P) palavras.length = palavras.length
  · exact ⟨[], by simp [hfim]⟩
  · exact ⟨janelasDesde palavras P O (i + (P - O)), by simp [hfim, hO]⟩

theorem janelasDesde_ne_nil (palavras : List String) (P O i : Nat) (hO : O < P)
    (hi : i < palavras.length) : janelasDesde palavras P O i ≠ [] := by
  obtain ⟨resto, h⟩ := janelasDesde_head palavras P O i hO hi
  simp [h]

theorem janelasDesde_nil (palavras : List String) (P O i : Nat)
    (hi : ¬ i < palavras.length) : janelasDesde palavras P O i = [] := by
  rw [janelasDesde]; simp [hi]

theorem colar_janelasDesde (palavras : List String) (P O : Nat) (hO : O < P) :
    ∀ i, colar O (janelasDesde palavras P O i) = palavras.drop i := by
  have main : ∀ d i, palavras.length - i ≤ d →
      colar O (janelasDesde palavras P O i) = palavras.drop i := by
    intro d
    induction d with
    | zero =>
      intro i hle
      have hi : ¬ i < palavras.length := by omega
      rw [janelasDesde_nil palavras P O i hi, colar,
        List.drop_eq_nil_of_le (by omega)]
    | succ d ih =>
      intro i hle
      rw [janelasDesde]
      by_cases hi : i < palavras.length
      · simp only [hi, dif_pos]
        by_cases hfim : min (i + P) palavras.length = palavras.length
        · simp only [hfim, if_true, if_pos]
          rw [colar, colar]
          have h1 : palavras.length - i = (palavras.drop i).length := by simp
          rw [List.drop_nil, List.append_nil, h1, List.take_length]
        · have hstep : i + P < palavras.length := by
            rcases Nat.lt_or_ge (i + P) palavras.length with h' | h'
            · exact h'
            · exact absurd (Nat.min_eq_right h') hfim
          have hmin : min (i + P) palavras.length = i + P := Nat.min_eq_left (by omega)
          simp only [hfim, if_false, hO, dif_pos]
          rw [colar, ih (i + (P - O)) (by omega), hmin]
          have h2 : i + P - i = P := by omega
          rw [h2, List.drop_drop]
          have h3 : i + (P - O) + O = i + P := by omega
          rw [h3]
          have h4 : palavras.drop (i + P) = (palavras.drop i).drop P := by
            rw [List.drop_drop]
          rw [h4, List.take_append_drop]
      · rw [dif_neg hi, colar, List.drop_eq_nil_of_le (by omega)]
  intro i
  exact main palavras.length i (by omega)

theorem janelasDesde_getLast (palavras : List String) (P O : Nat) (hO : O < P) :
    ∀ d i, palavras.length - i ≤ d → i < palavras.length →
      ∃ j, j < palavras.length ∧
        (janelasDesde palavras P O i).getLast? = some (palavras.drop j) := by
  intro d
  induction d with
  | zero => intro i hle hi; omega
  | succ d ih =>
    intro i hle hi
    rw [janelasDesde]
    simp only [hi, dif_pos]
    by_cases hfim : min (i + P) palavras.length = palavras.length
    · refine ⟨i, hi, ?_⟩
      simp only [hfim, if_true, if_pos, List.getLast?_singleton]
      have h1 : palavras.length - i = (palavras.drop i).length := by simp
      rw [h1, List.take_length]
    · have hstep : i + P < palavras.length := by
        rcases Nat.lt_or_ge (i + P) palavras.length with h' | h'
        · exact h'
        · exact absurd (Nat.min_eq_right h') hfim
      simp only [hfim, if_false, hO, dif_pos]
      have hi' : i + (P - O) < palavras.length := by omega
      obtain ⟨j, hj, hlast⟩ := ih (i + (P - O)) (by omega) hi'
      refine ⟨j, hj, ?_⟩
      obtain ⟨resto, hresto⟩ := janelasDesde_head palavras P O (i + (P - O)) hO hi'
      rw [hresto] at hlast ⊢
      rw [List.getLast?_cons_cons, hlast]

theorem janelasDesde_tamanhos (palavras : List String) (P O : Nat) (hO : O < P) :
    ∀ d i, palavras.length - i ≤ d →
      (∀ w ∈ janelasDesde palavras P O i, w ≠ [] ∧ w.length ≤ P) ∧
      (∀ w ∈ (janelasDesde palavras P O i).dropLast, w.length = P) := by
  intro d
  induction d with
  | zero =>
    intro i hle
    have hi : ¬ i < palavras.length := by omega
    rw [janelasDesde_nil palavras P O i hi]
    simp
  | succ d ih =>
    intro i hle
    rw [janelasDesde]
    by_cases hi : i < palavras.length
    · simp only [hi, dif_pos]
      by_cases hfim : min (i + P) palavras.length = palavras.length
      · simp only [hfim, if_true, if_pos]
        have hlen : ((palavras.drop i).take (palavras.length - i)).length
            = palavras.length - i := by
          simp [List.length_take, List.length_drop]
        constructor
        · intro w hw
          rw [List.mem_singleton] at hw
          subst hw
          constructor
          · intro hnil
            rw [hnil] at hlen
            simp at hlen
            omega
          · rw [hlen]; omega
        · intro w hw
          simp [List.dropLast_single] at hw
      · have hstep : i + P < palavras.length := by
          rcases Nat.lt_or_ge (i + P) palavras.length with h' | h'
          · exact h'
          · exact absurd (Nat.min_eq_right h') hfim
        have hmin : min (i + P) palavras.length = i + P := Nat.min_eq_left (by omega)
        simp only [hfim, if_false, hO, dif_pos]
        have hi' : i + (P - O) < palavras.length := by omega
        obtain ⟨ihA, ihB⟩ := ih (i + (P - O)) (by omega)
        have hchunklen : ((palavras.drop i).take (min (i + P) palavras.length - i)).length
            = P := by
          rw [hmin]
          simp [List.length_take, List.length_drop]
          omega
        constructor
        · intro w hw
          rcases List.mem_cons.mp hw with hw | hw
          · subst hw
            refine ⟨?_, le_of_eq hchunklen⟩
            intro hnil
            rw [hnil] at hchunklen
            simp at hchunklen
            omega
          · exact ihA w hw
        · intro w hw
          have hne := janelasDesde_ne_nil palavras P O (i + (P - O)) hO hi'
          rw [List.dropLast_cons_of_ne_nil hne] at hw
          rcases List.mem_cons.mp hw with hw | hw
          · subst hw; exact hchunklen
          · exact ihB w hw
    · rw [dif_neg hi]
      simp

theorem janelasDesde_chain (palavras : List String) (P O : Nat) (hO : O < P) :
    ∀ d i, palavras.length - i ≤ d →
      List.Chain' (sobreposicaoExata P O) (janelasDesde palavras P O i) := by
  intro d
  induction d with
  | zero =>
    intro i hle
    have hi : ¬ i < palavras.length := by omega
    rw [janelasDesde_nil palavras P O i hi]
    exact List.chain'_nil
  | succ d ih =>
    intro i hle
    rw [janelasDesde]
    by_cases hi : i < palavras.length
    · simp only [hi, dif_pos]
      by_cases hfim : min (i + P) palavras.length = palavras.length
      · simp only [hfim, if_true, if_pos]
        exact List.chain'_singleton _
      · have hstep : i + P < palavras.length := by
          rcases Nat.lt_or_ge (i + P) palavras.length with h' | h'
          · exact h'
          · exact absurd (Nat.min_eq_right h') hfim
        have hmin : min (i + P) palavras.length = i + P := Nat.min_eq_left (by omega)
        simp only [hfim, if_false, hO, dif_pos]
        have hi' : i + (P - O) < palavras.length := by omega
        rw [List.chain'_cons']
        refine ⟨?_, ih (i + (P - O)) (by omega)⟩
        intro y hy
        obtain ⟨resto, hresto⟩ := janelasDesde_head palavras P O (i + (P - O)) hO hi'
        rw [hresto, List.head?_cons, Option.mem_def, Option.some.injEq] at hy
        subst hy
        have hmin' : min (i + (P - O) + P) palavras.length - (i + (P - O))
            = min P (palavras.length - (i + (P - O))) := by omega
        have hlen' : ((palavras.drop (i + (P - O))).take
            (min (i + (P - O) + P) palavras.length - (i + (P - O)))).length
            = min P (palavras.length - (i + (P - O))) := by
          rw [hmin']
          simp [List.length_take, List.length_drop]
        refine ⟨?_, ?_, ?_⟩
        · rw [hmin]
          simp [List.length_take, List.length_drop]
          omega
        · rw [hlen']; omega
        · rw [hmin]
          have h2 : i + P - i = P := by omega
          rw [h2, List.drop_take]
          have h3 : P - (P - O) = O := by omega
          rw [h3, List.drop_drop, List.take_take]
          have h4 : min O (min (i + (P - O) + P) palavras.length - (i + (P - O))) = O := by
            omega
          rw [h4]
    · rw [dif_neg hi]
      exact List.chain'_nil

/-! ## Claims about chunking -/

/-- C1: for every non-empty word sequence, with the program's
configuration (300 words per chunk, 62 words of overlap, so overlap
strictly below the chunk budget), the loop of `dividir_em_chunks`
terminates and its windows cover the whole word sequence with no gap:
gluing the windows while deduplicating the overlapping word ranges
(`colar`) reconstructs the original word sequence exactly, and the last
window is a suffix of the word sequence, i.e. it ends at the final
word.  (`dividir_em_chunks` itself renders each window with
`" ".join`.) -/
theorem dividir_em_chunks_cobre_sem_lacunas (palavras : List String)
    (h : palavras ≠ []) :
    ∃ ws, dividirEmChunksPalavras palavras = some ws ∧ ws ≠ [] ∧
      colar palavras_sobreposicao ws = palavras ∧
      ∃ j, j < palavras.length ∧ ws.getLast? = some (palavras.drop j) := by
  have hO : palavras_sobreposicao < palavras_por_chunk := by decide
  have h0 : 0 < palavras.length := List.length_pos.mpr h
  refine ⟨_, dividirEmChunksPalavras_eq palavras, ?_, ?_, ?_⟩
  · exact janelasDesde_ne_nil palavras _ _ 0 hO h0
  · rw [colar_janelasDesde palavras _ _ hO 0, List.drop_zero]
  · exact janelasDesde_getLast palavras _ _ hO palavras.length 0 (by omega) h0

/-- Witness for C1 at the one-word text `["a"]`. -/
theorem dividir_em_chunks_cobre_sem_lacunas_witness :
    (["a"] : List String) ≠ [] ∧
    (∃ ws, dividirEmChunksPalavras ["a"] = some ws ∧ ws ≠ [] ∧
      colar palavras_sobreposicao ws = ["a"] ∧
      ∃ j, j < (["a"] : List String).length ∧
        ws.getLast? = some ((["a"] : List String).drop j)) :=
  ⟨by decide, dividir_em_chunks_cobre_sem_lacunas ["a"] (by decide)⟩

/-- C8: with the program's configuration every pair of consecutive
windows produced by the chunking loop shares exactly
`CHUNK_OVERLAP / 4 = 62` words — the earlier window of the pair is full
(300 words), the later has more than 62 words, and the 62-word suffix of
the earlier window is precisely the 62-word prefix of the later one.
This holds for every pair, which in particular satisfies the claim's
allowance of a deviant final pair. -/
theorem dividir_em_chunks_sobreposicao_consecutiva (palavras : List String) :
    ∃ ws, dividirEmChunksPalavras palavras = some ws ∧
      List.Chain' (sobreposicaoExata palavras_por_chunk palavras_sobreposicao) ws := by
  have hO : palavras_sobreposicao < palavras_por_chunk := by decide
  exact ⟨_, dividirEmChunksPalavras_eq palavras,
    janelasDesde_chain palavras _ _ hO palavras.length 0 (by omega)⟩

/-- C9: with the program's fixed configuration every window produced by
the chunking loop is non-empty with at most `palavras_por_chunk = 300`
words, and every window except possibly the last has exactly 300
words. -/
theorem dividir_em_chunks_tamanho_janelas (palavras : List String) :
    ∃ ws, dividirEmChunksPalavras palavras = some ws ∧
      (∀ w ∈ ws, w ≠ [] ∧ w.length ≤ palavras_por_chunk) ∧
      (∀ w ∈ ws.dropLast, w.length = palavras_por_chunk) := by
  have hO : palavras_sobreposicao < palavras_por_chunk := by decide
  obtain ⟨h1, h2⟩ :=
    janelasDesde_tamanhos palavras _ _ hO palavras.length 0 (by omega)
  exact ⟨_, dividirEmChunksPalavras_eq palavras, h1, h2⟩

/-- Witness for C9: the single window of the one-word text `["a"]` is
non-empty and within the 300-word budget. -/
theorem dividir_em_chunks_tamanho_janelas_witness :
    (["a"] : List String) ≠ [] ∧ (["a"] : List String).length ≤ palavras_por_chunk := by
  obtain ⟨ws, hws, h1, _h2⟩ := dividir_em_chunks_tamanho_janelas ["a"]
  have hcomp : dividirEmChunksPalavras ["a"] = some [["a"]] := by decide
  have hws' : ws = [["a"]] := Option.some.inj (hws.symm.trans hcomp)
  subst hws'
  exact h1 ["a"] (List.mem_singleton.mpr rfl)

set_option maxRecDepth 4000 in
/-- Concrete corroboration of the chunking shape on a 301-word text:
two windows, a full 300-word one and a final 63-word one starting at
word 238 (not a claim, a sanity check of the embedding). -/
theorem exemplo_chunking_301 :
    dividirEmChunksPalavras (List.replicate 301 "a") =
      some [List.replicate 300 "a", List.replicate 63 "a"] := by decide

/-- C2: the degenerate configuration of the claim
(`max_chunk_chars = 100`, `overlap_chars = 100`, hence
`words_per_chunk = words_overlap = 25`) is neither rejected nor
terminating: on a 26-word text the loop of `dividir_em_chunks` advances
its index by `25 - 25 = 0` each iteration and never finishes — no
amount of fuel makes the embedded loop complete.  The claim requires
the configuration to be rejected or the loop to terminate; the code
does neither, and the specification itself flags the missing guard. -/
theorem chunk_config_degenerada_nao_termina :
    ∀ fuel acc,
      chunkLoop (List.replicate 26 "a") (100 / 4) (100 / 4) fuel 0 acc = none := by
  intro fuel
  induction fuel with
  | zero => intro acc; rfl
  | succ fuel ih =>
    intro acc
    rw [chunkLoop]
    norm_num
    exact ih _

/-! ## Substring helpers -/

theorem toList_append_eq (a b : String) : (a ++ b).toList = a.toList ++ b.toList := rfl

theorem contem_tudo (s : String) : Contem s s :=
  ⟨[], [], by simp⟩

theorem contem_partes (a s b : String) : Contem (a ++ s ++ b) s :=
  ⟨a.toList, b.toList, by rw [toList_append_eq, toList_append_eq]⟩

theorem contem_esq (a : String) {hay agulha : String} (h : Contem hay agulha) :
    Contem (a ++ hay) agulha := by
  obtain ⟨s, t, hst⟩ := h
  exact ⟨a.toList ++ s, t, by rw [toList_append_eq, ← hst]; simp [List.append_assoc]⟩

theorem contem_dir (b : String) {hay agulha : String} (h : Contem hay agulha) :
    Contem (hay ++ b) agulha := by
  obtain ⟨s, t, hst⟩ := h
  exact ⟨s, t ++ b.toList, by rw [toList_append_eq, ← hst]; simp [List.append_assoc]⟩

theorem linhasTopicos_contem :
    ∀ (topicos : List Topico) (j k : Nat) (t : Topico),
      topicos.get? k = some t →
      Contem (linhasTopicos j topicos)
        (toString (j + k) ++ ". " ++ nomeTopico (j + k) t ++ "\n") := by
  intro topicos
  induction topicos with
  | nil => intro j k t h; simp at h
  | cons t0 resto ih =>
    intro j k t h
    cases k with
    | zero =>
      have ht : t0 = t := by simpa using h
      subst ht
      rw [linhasTopicos]
      simpa using contem_dir (linhasTopicos (j + 1) resto)
        (contem_tudo (toString j ++ ". " ++ nomeTopico j t0 ++ "\n"))
    | succ k' =>
      rw [linhasTopicos]
      have hrec := ih (j + 1) k' t (by simpa using h)
      have harith : j + 1 + k' = j + (k' + 1) := by omega
      rw [harith] at hrec
      exact contem_esq _ hrec

/-! ## Extraction loop characterization -/

theorem extrairLoop_snd (respostaDe : Nat → String) (sys : String)
    (topicos : List Topico) :
    ∀ k chunks, (extrairLoop respostaDe sys topicos k chunks).2 =
      chunks.map (fun c => (montarPrompt topicos c, sys)) := by
  intro k chunks
  induction chunks generalizing k with
  | nil => rfl
  | cons c resto ih => simp [extrairLoop, ih]

theorem extrairLoop_fst (respostaDe : Nat → String) (sys : String)
    (topicos : List Topico) :
    ∀ k chunks, (extrairLoop respostaDe sys topicos k chunks).1 =
      (((List.range' k chunks.length).map respostaDe).filter
        (fun r => !(contemSentinela r))).map String.trim := by
  intro k chunks
  induction chunks generalizing k with
  | nil => rfl
  | cons c resto ih =>
    rw [extrairLoop]
    simp only [List.length_cons, List.range'_succ, List.map_cons, List.filter_cons]
    by_cases h : contemSentinela (respostaDe k)
    · simp [h, ih]
    · simp [h, ih]

/-- `"".strip()` is `""` (the `trim` functions recurse on byte
positions, so this is proved by unfolding rather than by evaluation). -/
theorem trim_vazia : "".trim = "" := by
  have h1 : Substring.takeWhileAux "" 0 Char.isWhitespace 0 = 0 := by
    rw [Substring.takeWhileAux]; simp
  have h2 : Substring.takeRightWhileAux "" 0 Char.isWhitespace 0 = 0 := by
    rw [Substring.takeRightWhileAux]; simp
  simp [String.trim, Substring.trim, String.toSubstring]
  rw [h1, h2]
  rfl

/-! ## Claims about extraction -/

/-- C3 (amended): `extrair_informacoes` excludes a chunk's response
exactly when the response contains the substring
`"Nenhuma informação técnica relevante"` — the sentinel *without* its
final period, which is what line 290 actually tests; every other
response is retained trimmed of surrounding whitespace, in chunk
order.  (The claim as frozen names the dotted sentinel
`"Nenhuma informação técnica relevante."`; see the counterexample
`resposta_sem_ponto_final_excluida`.) -/
theorem extrair_informacoes_filtra_sentinela (respostaDe : Nat → String)
    (o : Orientacoes) (chunks : List String) (modeloId : Option String) :
    (extrair_informacoes respostaDe o chunks modeloId).1 =
      (((List.range chunks.length).map respostaDe).filter
        (fun r => !(contemSentinela r))).map String.trim := by
  simp only [extrair_informacoes]
  rw [extrairLoop_fst, List.range_eq_range']

/-- C3 counterexample: the response consisting of the sentinel without
its final period does not contain (nor equal) the dotted sentinel of
the claim, yet the code excludes it. -/
theorem resposta_sem_ponto_final_excluida :
    (extrair_informacoes (fun _ => sentinelaVerificada) orientacoesVazias
        ["c"] none).1 = [] ∧
    sentinelaVerificada ≠ sentinelaInstruida ∧
    ¬ Contem sentinelaVerificada sentinelaInstruida := by
  refine ⟨?_, by decide, by decide⟩
  simp only [extrair_informacoes]
  rw [extrairLoop_fst]
  have h : contemSentinela sentinelaVerificada = true := by decide
  simp [h, List.range']

/-- C4 (amended): a transport/timeout failure of the HTTP call is caught
inside `chamar_ollama`, which returns the empty response text; that
empty response does not contain the sentinel, so the affected chunk
contributes an *empty-string entry* to the retained extractions — it is
not dropped.  (The claim as frozen says the chunk contributes nothing;
see the counterexample `chamada_falha_contribui_entrada_vazia`.) -/
theorem chamada_falha_tratada_localmente (e : String) (o : Orientacoes)
    (modeloId : Option String) (respostaDe : Nat → String) (chunks : List String)
    (k : Nat) (hk : k < chunks.length) (hr : respostaDe k = "") :
    chamar_ollama (Except.error e) = "" ∧
    "" ∈ (extrair_informacoes respostaDe o chunks modeloId).1 := by
  refine ⟨rfl, ?_⟩
  simp only [extrair_informacoes]
  rw [extrairLoop_fst, ← List.range_eq_range']
  apply List.mem_map.mpr
  refine ⟨respostaDe k,
    List.mem_filter.mpr ⟨List.mem_map.mpr ⟨k, List.mem_range.mpr hk, rfl⟩, ?_⟩, ?_⟩
  · rw [hr]; decide
  · rw [hr]; exact trim_vazia

/-- Witness for C4 at a single chunk whose call failed. -/
theorem chamada_falha_tratada_localmente_witness :
    (0 : Nat) < (["c"] : List String).length ∧
    (chamar_ollama (Except.error "timeout") = "" ∧
      "" ∈ (extrair_informacoes (fun _ => "") orientacoesVazias ["c"] none).1) :=
  ⟨by decide, chamada_falha_tratada_localmente "timeout" orientacoesVazias none
    (fun _ => "") ["c"] 0 (by decide) rfl⟩

/-- C4 counterexample: with one chunk whose call fails, the retained
extractions are `[""]` — one entry — not the empty sequence the claim's
"contributes nothing" predicts. -/
theorem chamada_falha_contribui_entrada_vazia :
    (extrair_informacoes (fun _ => chamar_ollama (Except.error "timeout"))
        orientacoesVazias ["c"] none).1 = [""] ∧
    (extrair_informacoes (fun _ => chamar_ollama (Except.error "timeout"))
        orientacoesVazias ["c"] none).1.length ≠ 0 := by
  have h : (extrair_informacoes (fun _ => chamar_ollama (Except.error "timeout"))
      orientacoesVazias ["c"] none).1 = [""] := by
    simp only [extrair_informacoes]
    rw [extrairLoop_fst]
    have hc : contemSentinela (chamar_ollama (Except.error "timeout")) = false := by decide
    have he : chamar_ollama (Except.error "timeout") = "" := rfl
    have hc0 : contemSentinela "" = false := by decide
    simp [List.range', he, hc0, trim_vazia]
  exact ⟨h, by rw [h]; decide⟩

/-- C5: profile resolution in `extrair_informacoes`.  When `modelo_id`
is given (non-falsy) and is a key of the store, every call's system
instruction embeds that profile's orientation and every chunk's prompt
contains each of the profile's numbered topic-name lines; when
`modelo_id` is not given, is empty, or is absent from the store, every
chunk gets the generic four-category prompt and the system instruction
embeds the `"default"` orientation (the store's `"default"` entry, or
the hard-coded fallback when that key is missing) with an empty topic
list. -/
theorem extrair_resolucao_perfil (respostaDe : Nat → String) (o : Orientacoes)
    (chunks : List String) :
    (∀ m p, m ≠ "" → o.modelos.lookup m = some p →
      (extrair_informacoes respostaDe o chunks (some m)).2 =
        chunks.map (fun c =>
          (montarPrompt (p.topicos.getD []) c, montarSystemPrompt p.orientacao)) ∧
      Contem (montarSystemPrompt p.orientacao) p.orientacao ∧
      (∀ k t, (p.topicos.getD []).get? k = some t → ∀ c : String,
        Contem (montarPrompt (p.topicos.getD []) c)
          (toString (1 + k) ++ ". " ++ nomeTopico (1 + k) t ++ "\n"))) ∧
    (∀ modeloId,
      (modeloId = none ∨
        ∃ m, modeloId = some m ∧ (m = "" ∨ o.modelos.lookup m = none)) →
      (extrair_informacoes respostaDe o chunks modeloId).2 =
        chunks.map (fun c =>
          (promptGenerico c, montarSystemPrompt (orientacaoDefault o))) ∧
      Contem (montarSystemPrompt (orientacaoDefault o)) (orientacaoDefault o)) := by
  constructor
  · intro m p hm hp
    have hres : resolverOrientacao o (some m) = (p.orientacao, p.topicos.getD []) := by
      simp [resolverOrientacao, hm, hp]
    refine ⟨?_, ?_, ?_⟩
    · simp only [extrair_informacoes, hres]
      exact extrairLoop_snd respostaDe _ _ 0 chunks
    · exact contem_partes sysCab p.orientacao sysRegras
    · intro k t hk c
      have hne : (p.topicos.getD []).isEmpty = false := by
        cases hl : p.topicos.getD [] with
        | nil => rw [hl] at hk; simp at hk
        | cons a l => simp
      have hline := linhasTopicos_contem (p.topicos.getD []) 1 k t hk
      rw [montarPrompt, hne]
      simp only [Bool.false_eq_true, if_false]
      exact contem_dir "\n>>>\n" (contem_dir c (contem_dir promptTopicosMeio
        (contem_esq promptTopicosCab hline)))
  · intro modeloId hcase
    have hres : resolverOrientacao o modeloId = (orientacaoDefault o, []) := by
      rcases hcase with h | ⟨m, hm, hmm⟩
      · subst h; rfl
      · subst hm
        rcases hmm with h | h
        · subst h; simp [resolverOrientacao]
        · by_cases hme : m = ""
          · subst hme; simp [resolverOrientacao]
          · simp [resolverOrientacao, hme, h]
    refine ⟨?_, contem_partes sysCab _ sysRegras⟩
    simp only [extrair_informacoes, hres]
    rw [extrairLoop_snd]
    simp [montarPrompt]

/-- Witness for C5 with the spec's example: a store holding key `"X"`
with topics `["Escopo", "Prazo"]` and no key `"Y"` — both topic names
end up in the prompt for model `"X"`, and model `"Y"` falls back to the
generic prompt with the default orientation. -/
theorem extrair_resolucao_perfil_witness :
    ("X" : String) ≠ "" ∧
    orientacoesExemplo.modelos.lookup "X" = some perfilX ∧
    Contem (montarSystemPrompt perfilX.orientacao) perfilX.orientacao ∧
    Contem (montarPrompt (perfilX.topicos.getD []) "trecho")
      (toString (1 + 0) ++ ". " ++ nomeTopico (1 + 0) topicoEscopo ++ "\n") ∧
    Contem (montarPrompt (perfilX.topicos.getD []) "trecho")
      (toString (1 + 1) ++ ". " ++ nomeTopico (1 + 1) topicoPrazo ++ "\n") ∧
    (extrair_informacoes (fun _ => "") orientacoesExemplo ["trecho"] (some "Y")).2 =
      ["trecho"].map (fun c =>
        (promptGenerico c, montarSystemPrompt (orientacaoDefault orientacoesExemplo))) := by
  have h := extrair_resolucao_perfil (fun _ => "") orientacoesExemplo ["trecho"]
  have h1 := h.1 "X" perfilX (by decide) (by decide)
  have h2 := h.2 (some "Y") (Or.inr ⟨"Y", rfl, Or.inr (by decide)⟩)
  exact ⟨by decide, by decide, h1.2.1,
    h1.2.2 0 topicoEscopo (by decide) "trecho",
    h1.2.2 1 topicoPrazo (by decide) "trecho",
    h2.1⟩

/-! ## Claims about consolidation -/

/-- C6: `consolidar_analise` issues exactly two inference calls, in
order: the first call's prompt embeds all extraction texts joined with
newline separators (`chr(10).join`), the second call's prompt is built
from the first call's returned text and depends only on its first 2000
characters; both returned texts are passed back verbatim as the
`(consolidado, resumo)` pair with no further post-processing. -/
theorem consolidar_analise_duas_chamadas (infer : String → String → String)
    (extracoes : List String) (project_id : String) :
    (consolidar_analise infer extracoes project_id).2.length = 2 ∧
    (consolidar_analise infer extracoes project_id).2 =
      [(promptConsolidacao extracoes, systemConsolidacao),
       (promptResumo (infer (promptConsolidacao extracoes) systemConsolidacao),
        systemConsolidacao)] ∧
    Contem (promptConsolidacao extracoes) (String.intercalate "\n" extracoes) ∧
    (∀ c c', c.take 2000 = c'.take 2000 → promptResumo c = promptResumo c') ∧
    (consolidar_analise infer extracoes project_id).1 =
      (infer (promptConsolidacao extracoes) systemConsolidacao,
       infer (promptResumo (infer (promptConsolidacao extracoes) systemConsolidacao))
         systemConsolidacao) := by
  refine ⟨rfl, rfl,
    contem_partes promptConsolidacaoCab _ promptConsolidacaoRodape, ?_, rfl⟩
  intro c c' h
  simp only [promptResumo, h]

/-- Witness for C6 at a concrete run (and for its inner hypothesis, two
texts with equal 2000-character prefixes yield the same summary
prompt). -/
theorem consolidar_analise_duas_chamadas_witness :
    (consolidar_analise (fun _ _ => "R") ["a", "b"] "P1").2.length = 2 ∧
    promptResumo "abc" = promptResumo "abc" :=
  ⟨(consolidar_analise_duas_chamadas (fun _ _ => "R") ["a", "b"] "P1").1,
    (consolidar_analise_duas_chamadas (fun _ _ => "R") ["a", "b"] "P1").2.2.2.1
      "abc" "abc" rfl⟩

/-- C10: the second call issued by `consolidar_analise` — the summary
prompt — contains the literal characters
`" # Limitando contexto para o resumo"` immediately after the embedded
2000-character excerpt of the consolidated text (the Python comment of
line 325 sits inside the f-string), so this text is always sent to the
inference collaborator. -/
theorem prompt_resumo_inclui_comentario (infer : String → String → String)
    (extracoes : List String) (project_id : String) :
    ∃ pre,
      (consolidar_analise infer extracoes project_id).2.get? 1 =
        some (pre ++
          (infer (promptConsolidacao extracoes) systemConsolidacao).take 2000 ++
          (comentarioResumo ++ "\n    "), systemConsolidacao) ∧
      comentarioResumo = " # Limitando contexto para o resumo" :=
  ⟨promptResumoCab, rfl, rfl⟩

/-! ## Claims about saving profiles -/

theorem lookup_map_substitui (modelos : List (String × Perfil)) (k : String)
    (v : Perfil) (h : modelos.any (fun e => e.1 == k) = true) :
    (modelos.map (fun e => if e.1 == k then (e.1, v) else e)).lookup k = some v := by
  induction modelos with
  | nil => simp at h
  | cons e resto ih =>
    obtain ⟨k0, v0⟩ := e
    simp only [List.map_cons]
    by_cases he : k0 = k
    · subst he
      rw [show (if (k0 == k0) = true then (k0, v) else (k0, v0)) = (k0, v) from by simp]
      rw [List.lookup_cons]
      simp
    · have hbe : (k0 == k) = false := by simp [he]
      rw [List.any_cons] at h
      simp only [hbe, Bool.false_or] at h
      have hke : (k == k0) = false := by simp [Ne.symm he]
      rw [show (if (k0 == k) = true then (k0, v) else (k0, v0)) = (k0, v0) from by
        rw [hbe]; simp]
      rw [List.lookup_cons, hke]
      exact ih h

theorem lookup_map_outro (modelos : List (String × Perfil)) (k k' : String)
    (v : Perfil) (hk : k' ≠ k) :
    (modelos.map (fun e => if e.1 == k then (e.1, v) else e)).lookup k' =
      modelos.lookup k' := by
  induction modelos with
  | nil => simp
  | cons e resto ih =>
    obtain ⟨k0, v0⟩ := e
    simp only [List.map_cons]
    by_cases he : k0 = k
    · subst he
      have hke : (k' == k0) = false := by simp [hk]
      rw [show (if (k0 == k0) = true then (k0, v) else (k0, v0)) = (k0, v) from by simp]
      rw [List.lookup_cons, List.lookup_cons, hke]
      exact ih
    · have hbe : (k0 == k) = false := by simp [he]
      rw [show (if (k0 == k) = true then (k0, v) else (k0, v0)) = (k0, v0) from by
        rw [hbe]; simp]
      rw [List.lookup_cons, List.lookup_cons]
      by_cases hk0 : k' = k0
      · subst hk0
        simp
      · have hke : (k' == k0) = false := by simp [hk0]
        rw [hke]
        exact ih

theorem lookup_none_de_any_false (modelos : List (String × Perfil)) (k : String)
    (h : modelos.any (fun e => e.1 == k) = false) : modelos.lookup k = none := by
  rw [List.lookup_eq_none_iff]
  intro p hp
  rw [List.any_eq_false] at h
  have := h p hp
  simpa [bne] using fun hc => this (by simp [hc])

/-- C7 (amended): `salvar_orientacao_modelo` merges the new entry for
`model_id` into the previously persisted mapping — the saved key maps to
the new profile, every other key is unchanged — and rewrites the store
file *in place*: `open(..., "w")` truncates it and `json.dump` then
writes the whole new mapping, so the final persisted content is the
complete new serialization, but between the truncation and the write the
persisted store is empty — the save is not atomic and there is no
write-then-replace.  (See the counterexample
`salvar_estado_intermediario_parcial`.) -/
theorem salvar_orientacao_modelo_mescla (modelos : List (String × Perfil))
    (model_id nome_modelo orientacao : String) (topicos : Option (List Topico))
    (agora : String) (antigo conteudo : String) :
    (salvar_orientacao_modelo modelos model_id nome_modelo orientacao
        topicos agora).lookup model_id =
      some (perfilSalvo nome_modelo orientacao topicos agora) ∧
    (∀ k, k ≠ model_id →
      (salvar_orientacao_modelo modelos model_id nome_modelo orientacao
          topicos agora).lookup k = modelos.lookup k) ∧
    (estadosArquivo antigo (passosEscrita conteudo)).getLast? = some conteudo ∧
    "" ∈ estadosArquivo antigo (passosEscrita conteudo) := by
  refine ⟨?_, ?_, ?_, ?_⟩
  · rw [salvar_orientacao_modelo, atualizarPerfil]
    by_cases h : modelos.any (fun e => e.1 == model_id) = true
    · rw [if_pos h]
      exact lookup_map_substitui modelos model_id _ h
    · rw [if_neg h]
      rw [List.lookup_append,
        lookup_none_de_any_false modelos model_id
          (by simp only [Bool.not_eq_true] at h; exact h)]
      simp
  · intro k hk
    rw [salvar_orientacao_modelo, atualizarPerfil]
    by_cases h : modelos.any (fun e => e.1 == model_id) = true
    · rw [if_pos h]
      exact lookup_map_outro modelos model_id k _ hk
    · rw [if_neg h]
      rw [List.lookup_append]
      have hkm : (k == model_id) = false := by simp [hk]
      simp [List.lookup_cons, hkm]
  · rfl
  · simp [estadosArquivo, passosEscrita, List.scanl, aplicarAcao]

/-- Witness for C7 (amended), saving into an empty store. -/
theorem salvar_orientacao_modelo_mescla_witness :
    ("outro" : String) ≠ "m1" ∧
    (salvar_orientacao_modelo [] "m1" "Nome" "Orientação" none
        "2024-01-01 00:00:00").lookup "outro" =
      ([] : List (String × Perfil)).lookup "outro" ∧
    (salvar_orientacao_modelo [] "m1" "Nome" "Orientação" none
        "2024-01-01 00:00:00").lookup "m1" =
      some (perfilSalvo "Nome" "Orientação" none "2024-01-01 00:00:00") ∧
    "" ∈ estadosArquivo conteudoAntigoExemplo (passosEscrita conteudoNovoExemplo) := by
  have h := salvar_orientacao_modelo_mescla [] "m1" "Nome" "Orientação" none
    "2024-01-01 00:00:00" conteudoAntigoExemplo conteudoNovoExemplo
  exact ⟨by decide, h.2.1 "outro" (by decide), h.1, h.2.2.2⟩

/-- C7 counterexample: the store file passes through the empty
intermediate state left by the truncating `open(..., "w")`, which is
neither the old nor the new persisted mapping — so the save is not
atomic write-then-replace. -/
theorem salvar_estado_intermediario_parcial :
    "" ∈ estadosArquivo conteudoAntigoExemplo (passosEscrita conteudoNovoExemplo) ∧
    "" ≠ conteudoAntigoExemplo ∧ "" ≠ conteudoNovoExemplo := by decide
